import Mathlib

/-!
Shallow embedding of the progress / certificate subsystem of the
paralegal-training backend (apps `modules` and `progress`).

Conventions of the embedding:
* machine floats of the source are modelled as `ℚ`;
* timestamps are `Nat` values passed explicitly as `now` where the source
  calls `timezone.now()`;
* the relational store is a record of lists, one per table; Django's
  `objects.filter/get/create` become list operations;
* randomness (`random.choices`) is modelled by an explicit stream
  `Nat → Nat` supplied by the caller;
* write-only audit data (`UserActivity`) is not modelled: no modelled
  operation reads it back.
-/

namespace PJ

/-- `accounts.models.CustomUser` (the fields the progress subsystem reads).
`preferred_language` is the raw stored string, compared against the literals
`"FR"` and `"FON"` exactly as the source does. -/
structure User where
  id : Nat
  preferred_language : String
  full_name : String
deriving DecidableEq, Repr

/-- `modules.models.Module` (fields read by the subsystem; `has_audio` stands
for the presence of the `audio_fon` file). -/
structure Module where
  id : Nat
  number : Nat
  is_active : Bool
  has_audio : Bool
deriving DecidableEq, Repr

/-- `Module.is_reporting_module`: module 10 is the reporting module. -/
def Module.is_reporting_module (m : Module) : Bool :=
  m.number == 10

/-- `modules.models.QuizQuestion`. -/
structure QuizQuestion where
  id : Nat
  module_id : Nat
  order : Nat
  question_type : String
  points : Nat
  is_active : Bool
deriving DecidableEq, Repr

/-- `modules.models.AnswerChoice`. -/
structure AnswerChoice where
  id : Nat
  question_id : Nat
  is_correct : Bool
deriving DecidableEq, Repr

/-- `modules.models.UserQuizAttempt`. -/
structure UserQuizAttempt where
  user_id : Nat
  module_id : Nat
  attempt_number : Nat
  score : ℚ
  total_questions : Nat
  correct_answers : Nat
  is_passed : Bool
  started_at : Nat
  completed_at : Nat
deriving DecidableEq, Repr

/-- `UserQuizAttempt.save`: `is_passed = (score >= 80.0)` is recomputed on
every save and is never independently settable. -/
def UserQuizAttempt.applySave (a : UserQuizAttempt) : UserQuizAttempt :=
  { a with is_passed := decide (80 ≤ a.score) }

/-- `modules.models.UserQuizAnswer`; the attempt foreign key is the triple
`(user_id, module_id, attempt_number)`. -/
structure UserQuizAnswer where
  user_id : Nat
  module_id : Nat
  attempt_number : Nat
  question_id : Nat
  selected_choices : List Nat
  is_correct : Bool
  points_earned : ℚ
deriving DecidableEq, Repr

/-- `progress.models.ModuleProgress`. -/
structure ModuleProgress where
  user_id : Nat
  module_id : Nat
  progress_percentage : ℚ
  is_completed : Bool
  last_audio_position : Nat
  total_listening_time : Nat
  listening_sessions : Nat
  completed_at : Option Nat
deriving DecidableEq, Repr

/-- `ModuleProgress.save`: stamps `completed_at` when completion is first
reached and clears it whenever `is_completed` is false. -/
def ModuleProgress.applySave (now : Nat) (mp : ModuleProgress) : ModuleProgress :=
  if mp.is_completed && mp.completed_at == none then
    { mp with completed_at := some now }
  else if !mp.is_completed then
    { mp with completed_at := none }
  else
    mp

/-- `progress.models.Certificate`. -/
structure Certificate where
  user_id : Nat
  verification_code : String
  full_name : String
  total_modules_completed : Nat
  average_score : ℚ
  is_valid : Bool
deriving DecidableEq, Repr

/-- The alphabet of `string.ascii_uppercase + string.digits`. -/
def codeAlphabet : List Char :=
  "ABCDEFGHIJKLMNOPQRSTUVWXYZ0123456789".toList

/-- `random.choices(string.ascii_uppercase + string.digits, k=12)`: twelve
independent draws from the 36-character alphabet, fed by the caller's
randomness stream. -/
def genCode (stream : Nat → Nat) : String :=
  String.mk ((List.range 12).map (fun i => codeAlphabet.getD (stream i % 36) 'A'))

/-- The second half of `Certificate.save`: copies the user's full name when
the stored one is blank. -/
def Certificate.applyFullName (u : User) (c : Certificate) : Certificate :=
  if c.full_name = "" then { c with full_name := u.full_name } else c

/-- `Certificate.save`: generates a verification code when unset and copies
the user's full name when unset. It performs no collision check against
existing codes. -/
def Certificate.applySave (u : User) (stream : Nat → Nat) (c : Certificate) : Certificate :=
  Certificate.applyFullName u
    (if c.verification_code = "" then { c with verification_code := genCode stream } else c)

/-- `progress.models.OverallProgress`. -/
structure OverallProgress where
  user_id : Nat
  total_modules : Nat
  completed_modules : Nat
  completion_percentage : ℚ
  total_quiz_attempts : Nat
  average_quiz_score : Option ℚ
  total_audio_time : Nat
  can_get_certificate : Bool
  certificate_requested : Bool
  completed_at : Option Nat
deriving DecidableEq, Repr

/-- The durable store: one list per relational table. -/
structure Store where
  modules : List Module
  questions : List QuizQuestion
  choices : List AnswerChoice
  attempts : List UserQuizAttempt
  quiz_answers : List UserQuizAnswer
  module_progress : List ModuleProgress
  certificates : List Certificate
  overall : List OverallProgress
deriving DecidableEq, Repr

/-- `Module.objects.filter(is_active=True, number__lt=10)`: the training
modules (the reporting module and inactive modules excluded). -/
def Store.trainingModules (st : Store) : List Module :=
  st.modules.filter (fun m => m.is_active && m.number < 10)

/-- Membership of a module id in a module queryset (`module__in=...`). -/
def moduleIdIn (ms : List Module) (mid : Nat) : Bool :=
  ms.any (fun m => m.id == mid)

/-- `verify_certificate` response payload (progress/views.py). -/
inductive VerifyResp where
  | ok (full_name : String) (total_modules_completed : Nat)
       (average_score : ℚ) (verification_code : String)
  | notFound (message : String)
deriving DecidableEq, Repr

/-- `progress.views.verify_certificate`: look up
`Certificate.objects.get(verification_code=..., is_valid=True)`; a miss (no
row, or only a revoked row) answers the constant not-found payload with 404.
The view performs no writes, so the store is returned unchanged. -/
def verify_certificate (st : Store) (code : String) : Store × VerifyResp :=
  match st.certificates.find? (fun c => c.verification_code == code && c.is_valid) with
  | some c => (st, .ok c.full_name c.total_modules_completed c.average_score c.verification_code)
  | none => (st, .notFound "Certificat non trouvé ou invalide")

/-- `QuizQuestion.answer_choices` (the reverse foreign key). -/
def QuizQuestion.answerChoices (st : Store) (q : QuizQuestion) : List AnswerChoice :=
  st.choices.filter (fun c => c.question_id == q.id)

/-- `QuizQuestion.get_correct_answers`: `answer_choices.filter(is_correct=True)`. -/
def QuizQuestion.get_correct_answers (st : Store) (q : QuizQuestion) : List AnswerChoice :=
  (q.answerChoices st).filter (·.is_correct)

/-- `set(question.get_correct_answers().values_list('id', flat=True))`. -/
def correctChoiceIds (st : Store) (q : QuizQuestion) : Finset Nat :=
  ((q.get_correct_answers st).map (·.id)).toFinset

/-- `Module.get_quiz_questions`: the module's active questions. -/
def Module.get_quiz_questions (st : Store) (m : Module) : List QuizQuestion :=
  st.questions.filter (fun q => q.module_id == m.id && q.is_active)

/-- One entry of a quiz submission: `{question: <pk>, selected_choices: [<pk>]}`. -/
structure AnswerSubmission where
  question_id : Nat
  selected_choice_ids : List Nat
deriving DecidableEq, Repr

/-- The body accepted by `QuizSubmissionSerializer`. -/
structure QuizSubmission where
  module_id : Nat
  answers : List AnswerSubmission
  started_at : Nat
deriving DecidableEq, Repr

/-- Resolution of the primary-key-related fields of one submitted answer:
the question id and each selected choice id must reference existing rows
(`PrimaryKeyRelatedField` over all questions / choices). -/
def resolveAnswer (st : Store) (a : AnswerSubmission) : Option (QuizQuestion × List AnswerChoice) := do
  let q ← st.questions.find? (fun qq => qq.id == a.question_id)
  let cs ← a.selected_choice_ids.mapM (fun cid => st.choices.find? (fun c => c.id == cid))
  pure (q, cs)

/-- Resolution of the whole `answers` list. -/
def resolveAnswers (st : Store) (answers : List AnswerSubmission) :
    Option (List (QuizQuestion × List AnswerChoice)) :=
  answers.mapM (resolveAnswer st)

/-- `QuizSubmissionSerializer.validate_answers`, per answer: every selected
choice belongs to the claimed question, and a SINGLE question takes at most
one selection. -/
def answerIsValid (st : Store) (q : QuizQuestion) (selected : List AnswerChoice) : Bool :=
  ((selected.map (·.id)).toFinset ⊆ ((q.answerChoices st).map (·.id)).toFinset : Bool)
    && !(q.question_type == "SINGLE" && selected.length > 1)

/-- The running totals of the answer-processing loop of `submit_quiz`. -/
structure Graded where
  correct_answers : Nat
  total_points_possible : Nat
  total_points_earned : Nat
  answer_rows : List UserQuizAnswer
deriving DecidableEq, Repr

/-- The answer-processing loop of `submit_quiz` (modules/views.py): each
answer is correct iff the selected choice-id set equals the question's
correct choice-id set; a correct answer earns the question's points, an
incorrect one earns zero; a `UserQuizAnswer` row is persisted per answer. -/
def gradeAnswers (st : Store) (uid mid anum : Nat) :
    List (QuizQuestion × List AnswerChoice) → Graded
  | [] => { correct_answers := 0, total_points_possible := 0,
            total_points_earned := 0, answer_rows := [] }
  | (q, selected) :: rest =>
    let r := gradeAnswers st uid mid anum rest
    let selected_ids := (selected.map (·.id)).toFinset
    let isC : Bool := correctChoiceIds st q == selected_ids
    let pts : Nat := if isC then q.points else 0
    { correct_answers := (if isC then 1 else 0) + r.correct_answers,
      total_points_possible := q.points + r.total_points_possible,
      total_points_earned := pts + r.total_points_earned,
      answer_rows :=
        { user_id := uid, module_id := mid, attempt_number := anum,
          question_id := q.id, selected_choices := selected.map (·.id),
          is_correct := isC, points_earned := (pts : ℚ) } :: r.answer_rows }

/-- The answer-processing loop as it actually executes: `UserQuizAnswer` has
`unique_together = ['attempt', 'question']`, and the serializer never rejects
a submission listing the same question twice (its duplicate-check set is dead
code), so the second `UserQuizAnswer.objects.create` for a repeated question
raises IntegrityError mid-loop. `.error rows` is that unhandled exception,
carrying the rows fully written before the crash; `.ok` carries the loop's
totals and rows. `seen` is the set of question ids already inserted for this
attempt. -/
def processAnswers (st : Store) (uid mid anum : Nat) :
    List Nat → List (QuizQuestion × List AnswerChoice) →
      Except (List UserQuizAnswer) Graded
  | _, [] =>
    .ok { correct_answers := 0, total_points_possible := 0,
          total_points_earned := 0, answer_rows := [] }
  | seen, (q, selected) :: rest =>
    if seen.contains q.id then .error []
    else
      match processAnswers st uid mid anum (q.id :: seen) rest with
      | .ok g =>
        .ok { correct_answers :=
                (if correctChoiceIds st q == (selected.map (·.id)).toFinset then 1 else 0) +
                  g.correct_answers,
              total_points_possible := q.points + g.total_points_possible,
              total_points_earned :=
                (if correctChoiceIds st q == (selected.map (·.id)).toFinset then q.points
                 else 0) + g.total_points_earned,
              answer_rows :=
                { user_id := uid, module_id := mid, attempt_number := anum,
                  question_id := q.id, selected_choices := selected.map (·.id),
                  is_correct := correctChoiceIds st q == (selected.map (·.id)).toFinset,
                  points_earned :=
                    ((if correctChoiceIds st q == (selected.map (·.id)).toFinset then
                        q.points else 0 : Nat) : ℚ) } :: g.answer_rows }
      | .error rows =>
        .error
          ({ user_id := uid, module_id := mid, attempt_number := anum,
             question_id := q.id, selected_choices := selected.map (·.id),
             is_correct := correctChoiceIds st q == (selected.map (·.id)).toFinset,
             points_earned :=
               ((if correctChoiceIds st q == (selected.map (·.id)).toFinset then
                   q.points else 0 : Nat) : ℚ) } :: rows)

/-- `score_percentage = (earned / possible) * 100 if possible > 0 else 0`. -/
def computeScore (earned possible : Nat) : ℚ :=
  if possible > 0 then ((earned : ℚ) / (possible : ℚ)) * 100 else 0

/-- The greatest element of a list of naturals, `none` on the empty list
(the embedding of `order_by('-attempt_number').first()`, of which only the
`attempt_number` is read). -/
def maxNat : List Nat → Option Nat
  | [] => none
  | n :: rest =>
    match maxNat rest with
    | none => some n
    | some m => some (max n m)

/-- The greatest element of a list of rationals, `none` on the empty list
(the embedding of `order_by('-score').first()`, of which only the `score`
is read). -/
def maxQ : List ℚ → Option ℚ
  | [] => none
  | q :: rest =>
    match maxQ rest with
    | none => some q
    | some m => some (max q m)

/-- `UserQuizAttempt.objects.filter(user=user, module=module)`. -/
def attemptsFor (st : Store) (uid mid : Nat) : List UserQuizAttempt :=
  st.attempts.filter (fun a => a.user_id == uid && a.module_id == mid)

/-- The attempt numbers already used for `(user, module)`. -/
def attemptNumbersFor (st : Store) (uid mid : Nat) : List Nat :=
  (attemptsFor st uid mid).map (·.attempt_number)

/-- `attempt_number = (last_attempt.attempt_number + 1) if last_attempt else 1`,
where `last_attempt` is the existing attempt with the greatest number. -/
def assignedAttemptNumber (st : Store) (uid mid : Nat) : Nat :=
  match maxNat (attemptNumbersFor st uid mid) with
  | none => 1
  | some n => n + 1

/-- The attempt row as persisted by `submit_quiz`: created with score 0, then
updated with the graded score and saved again (`is_passed` recomputed). -/
def finalAttempt (st : Store) (u : User) (module : Module)
    (pairs : List (QuizQuestion × List AnswerChoice)) (started now : Nat) : UserQuizAttempt :=
  UserQuizAttempt.applySave
    { user_id := u.id, module_id := module.id,
      attempt_number := assignedAttemptNumber st u.id module.id,
      score := computeScore
        (gradeAnswers st u.id module.id (assignedAttemptNumber st u.id module.id) pairs).total_points_earned
        (gradeAnswers st u.id module.id (assignedAttemptNumber st u.id module.id) pairs).total_points_possible,
      total_questions := (module.get_quiz_questions st).length,
      correct_answers :=
        (gradeAnswers st u.id module.id (assignedAttemptNumber st u.id module.id) pairs).correct_answers,
      is_passed := false, started_at := started, completed_at := now }

/-- The attempt row as `UserQuizAttempt.objects.create` commits it before the
answer loop runs: score 0, no correct answers, `is_passed` computed by the
save hook. This is the row left behind when the loop crashes mid-write. -/
def initialAttempt (st : Store) (u : User) (module : Module) (started now : Nat) :
    UserQuizAttempt :=
  UserQuizAttempt.applySave
    { user_id := u.id, module_id := module.id,
      attempt_number := assignedAttemptNumber st u.id module.id,
      score := 0, total_questions := (module.get_quiz_questions st).length,
      correct_answers := 0, is_passed := false, started_at := started, completed_at := now }

/-- The final update of the attempt row from the loop's totals:
`quiz_attempt.correct_answers = ...; quiz_attempt.score = ...;
quiz_attempt.save()` — `is_passed` recomputed by the save hook. -/
def finalAttemptOf (st : Store) (u : User) (module : Module) (g : Graded)
    (started now : Nat) : UserQuizAttempt :=
  UserQuizAttempt.applySave
    { initialAttempt st u module started now with
        score := computeScore g.total_points_earned g.total_points_possible,
        correct_answers := g.correct_answers }

/-- The result payload of `submit_quiz`. -/
structure AttemptResult where
  attempt : UserQuizAttempt
  passed : Bool
deriving DecidableEq, Repr

/-- The outcome of `submit_quiz`: a 400 validation error, the unhandled
storage unique-constraint violation raised mid-write by a duplicate-question
submission, or the 201 created-attempt payload. -/
inductive SubmitResult where
  | badRequest (msg : String)
  | integrityError (msg : String)
  | ok (r : AttemptResult)
deriving DecidableEq, Repr

/-- `modules.views.submit_quiz`: serializer validation (module exists, is
active and is not the reporting module; answer references resolve; at least
one answer; per-answer choice/type checks — duplicate questions are NOT
rejected), the French-track guard, the attempt-number assignment
`1 + max existing` (or `1`), the non-empty question-set guard, the initial
attempt insert, the answer loop (which raises the unique-constraint
violation mid-write on a duplicate question, leaving the score-0 attempt and
the prefix rows persisted), and the final save of the attempt (`is_passed`
recomputed from the final score). -/
def submit_quiz (st : Store) (u : User) (sub : QuizSubmission) (now : Nat) :
    Store × SubmitResult :=
  match st.modules.find? (fun m => m.id == sub.module_id && m.is_active) with
  | none => (st, .badRequest "Module introuvable.")
  | some module =>
    if module.is_reporting_module then
      (st, .badRequest "Le module de signalement n’a pas de quiz.")
    else
      match resolveAnswers st sub.answers with
      | none => (st, .badRequest "Référence de question ou de choix invalide.")
      | some pairs =>
        if pairs.isEmpty then
          (st, .badRequest "Au moins une réponse est requise.")
        else if pairs.any (fun p => !(answerIsValid st p.1 p.2)) then
          (st, .badRequest "Choix invalides ou nombre de réponses incorrect.")
        else if u.preferred_language ≠ "FR" then
          (st, .badRequest "Les quiz ne sont disponibles qu’en français")
        else if (module.get_quiz_questions st).isEmpty then
          (st, .badRequest "Aucune question trouvée pour ce module")
        else
          match processAnswers st u.id module.id
              (assignedAttemptNumber st u.id module.id) [] pairs with
          | .error rows =>
            ({ st with attempts := st.attempts ++ [initialAttempt st u module sub.started_at now],
                       quiz_answers := st.quiz_answers ++ rows },
             .integrityError "UserQuizAnswer unique (attempt, question)")
          | .ok g =>
            ({ st with attempts := st.attempts ++ [finalAttemptOf st u module g sub.started_at now],
                       quiz_answers := st.quiz_answers ++ g.answer_rows },
             .ok { attempt := finalAttemptOf st u module g sub.started_at now,
                   passed := (finalAttemptOf st u module g sub.started_at now).is_passed })

/-- The outcome of `track_audio_progress`: a 400 validation error, or the
updated percentage / completion pair. -/
inductive AudioResult where
  | badRequest (msg : String)
  | ok (progress_percentage : ℚ) (is_completed : Bool)
deriving DecidableEq, Repr

/-- The `ModuleProgress` row key used throughout `track_audio_progress`. -/
def progressKey (uid mid : Nat) (mp : ModuleProgress) : Bool :=
  mp.user_id == uid && mp.module_id == mid

/-- The completion transition of `track_audio_progress`: when the reported
percentage reaches 100, mark the row completed and stamp `completed_at`,
then save. -/
def audioCompleted (p : ℚ) (now : Nat) (row : ModuleProgress) : ModuleProgress :=
  if 100 ≤ p then
    ModuleProgress.applySave now { row with is_completed := true, completed_at := some now }
  else row

/-- The row created by `get_or_create` on first call, defaults taken from the
call, with the completion transition applied. -/
def audioCreatedRow (uid mid : Nat) (p : ℚ) (current_time now : Nat) : ModuleProgress :=
  audioCompleted p now (ModuleProgress.applySave now
    { user_id := uid, module_id := mid, progress_percentage := p, is_completed := false,
      last_audio_position := current_time, total_listening_time := 0,
      listening_sessions := 0, completed_at := none })

/-- The monotone update of an existing row: written only when the new
percentage strictly exceeds the stored one; then the completion transition. -/
def audioUpdatedRow (row : ModuleProgress) (p : ℚ) (current_time now : Nat) : ModuleProgress :=
  audioCompleted p now
    (if row.progress_percentage < p then
      ModuleProgress.applySave now
        { row with progress_percentage := p, last_audio_position := current_time }
    else row)

/-- `modules.views.track_audio_progress`: serializer validation (percentage
in [0,100], module exists, is active and has an audio file), the Fon-track
guard, `get_or_create` of the row (defaults taken from the call), the
monotone update (write only when the new percentage strictly exceeds the
stored one), and the completion transition applied whenever the reported
percentage reaches 100, even redundantly. -/
def track_audio_progress (st : Store) (u : User) (module_id : Nat)
    (p : ℚ) (current_time : Nat) (now : Nat) : Store × AudioResult :=
  if !(0 ≤ p && p ≤ 100) then
    (st, .badRequest "Pourcentage hors limites.")
  else
    match st.modules.find? (fun m => m.id == module_id && m.is_active) with
    | none => (st, .badRequest "Module introuvable.")
    | some module =>
      if !module.has_audio then
        (st, .badRequest "Ce module n’a pas de fichier audio.")
      else if u.preferred_language ≠ "FON" then
        (st, .badRequest "Le suivi audio n’est disponible qu’en langue Fon")
      else
        match st.module_progress.find? (progressKey u.id module.id) with
        | none =>
          ({ st with module_progress :=
               st.module_progress ++ [audioCreatedRow u.id module.id p current_time now] },
           .ok (audioCreatedRow u.id module.id p current_time now).progress_percentage
               (audioCreatedRow u.id module.id p current_time now).is_completed)
        | some progress =>
          ({ st with module_progress :=
               st.module_progress.map (fun mp =>
                 if progressKey u.id module.id mp then
                   audioUpdatedRow progress p current_time now
                 else mp) },
           .ok (audioUpdatedRow progress p current_time now).progress_percentage
               (audioUpdatedRow progress p current_time now).is_completed)

/-- The language-specific statistics block of `OverallProgress.update_progress`:
for French users the best-attempt average over training modules (left
unchanged when there is no attempt) and the total attempt count; otherwise
the total listening time over all of the user's progress rows. -/
def updateLangStats (st : Store) (u : User) (self : OverallProgress) : OverallProgress :=
  let training := st.trainingModules
  if u.preferred_language == "FR" then
    let attempts := st.attempts.filter
      (fun a => a.user_id == u.id && moduleIdIn training a.module_id)
    let self1 :=
      if attempts.isEmpty then self
      else
        let best_attempts := training.filterMap
          (fun m => maxQ ((attempts.filter (fun a => a.module_id == m.id)).map (·.score)))
        if best_attempts.isEmpty then self
        else
          let avg := best_attempts.sum / (best_attempts.length : ℚ)
          { self with average_quiz_score := some avg }
    { self1 with total_quiz_attempts := attempts.length }
  else
    let total_time :=
      ((st.module_progress.filter (fun mp => mp.user_id == u.id)).map
        (·.total_listening_time)).sum
    { self with total_audio_time := total_time }

/-- The completed-module count of `OverallProgress.update_progress`: for
French users the number of distinct training modules with a passing
attempt, otherwise the number of completed training-module progress rows. -/
def computedCompletedCount (st : Store) (u : User) : Nat :=
  let training := st.trainingModules
  if u.preferred_language == "FR" then
    (((st.attempts.filter (fun a =>
        a.user_id == u.id && moduleIdIn training a.module_id && a.is_passed)).map
      (·.module_id)).dedup).length
  else
    (st.module_progress.filter (fun mp =>
      mp.user_id == u.id && moduleIdIn training mp.module_id && mp.is_completed)).length

/-- `self.completed_modules = completed_count; self.total_modules = training.count()`. -/
def applyCounters (st : Store) (u : User) (s : OverallProgress) : OverallProgress :=
  { s with completed_modules := computedCompletedCount st u,
           total_modules := st.trainingModules.length }

/-- `if self.total_modules > 0: self.completion_percentage = count/total*100`
(the percentage is left untouched when there is no training module). -/
def applyPercentage (st : Store) (u : User) (s : OverallProgress) : OverallProgress :=
  if st.trainingModules.length > 0 then
    { s with completion_percentage :=
        ((computedCompletedCount st u : ℚ) / (st.trainingModules.length : ℚ)) * 100 }
  else s

/-- `self.can_get_certificate = (count == total)`, then stamp `completed_at`
on the first transition into eligibility — never cleared once set. -/
def stampEligibility (st : Store) (u : User) (now : Nat) (s : OverallProgress) : OverallProgress :=
  if (computedCompletedCount st u == st.trainingModules.length) && s.completed_at == none then
    { s with can_get_certificate := computedCompletedCount st u == st.trainingModules.length,
             completed_at := some now }
  else
    { s with can_get_certificate := computedCompletedCount st u == st.trainingModules.length }

/-- `progress.models.OverallProgress.update_progress`: recompute the
language-specific statistics and the completed-module count, set the
counters, rewrite the completion percentage only when there is at least one
training module, recompute eligibility, and stamp `completed_at` on the
first transition into eligibility (never clearing it). The method reads the
module, attempt and module-progress tables and writes only its own row;
its effect on the row is returned. -/
def OverallProgress.update_progress (st : Store) (u : User) (now : Nat)
    (self : OverallProgress) : OverallProgress :=
  stampEligibility st u now (applyPercentage st u (applyCounters st u (updateLangStats st u self)))

/-- The payload built by `FonUserProgressSerializer.to_representation`
(the fields the claims read; the constant contact block is represented by
the WhatsApp number). -/
structure FonPayload where
  message : String
  whatsapp_number : String
  completed_modules : Nat
  total_modules : Nat
  is_eligible : Bool
  progress_screenshot_required : Bool
deriving DecidableEq, Repr

/-- `FonUserProgressSerializer.to_representation`: counts the user's
completed training-module progress rows and answers the manual-verification
instruction payload, with the all-done or keep-going message. -/
def fonPayload (st : Store) (u : User) : FonPayload :=
  let training := st.trainingModules
  let completed := (st.module_progress.filter (fun mp =>
    mp.user_id == u.id && moduleIdIn training mp.module_id && mp.is_completed)).length
  if completed == training.length then
    { message := "Félicitations ! Vous avez terminé tous les modules audio. Pour obtenir votre attestation, vous devez passer l’examen au siège de HAI ou dans une annexe.",
      whatsapp_number := "+229 01 57 57 51 67",
      completed_modules := completed, total_modules := training.length,
      is_eligible := true, progress_screenshot_required := true }
  else
    { message := "Vous avez terminé " ++ toString completed ++ "/" ++
        toString training.length ++ " modules. Continuez votre formation pour être éligible à l’attestation.",
      whatsapp_number := "+229 01 57 57 51 67",
      completed_modules := completed, total_modules := training.length,
      is_eligible := false, progress_screenshot_required := false }

/-- The best passing score of a user on a module:
`filter(user, module, is_passed=True).order_by('-score').first().score`. -/
def bestPassedScore (st : Store) (uid mid : Nat) : Option ℚ :=
  maxQ ((st.attempts.filter (fun a =>
    a.user_id == uid && a.module_id == mid && a.is_passed)).map (·.score))

/-- `CertificateRequestSerializer.validate` for a French user: the number of
distinct training modules with a passing attempt. -/
def passedTrainingCount (st : Store) (uid : Nat) : Nat :=
  let training := st.trainingModules
  (((st.attempts.filter (fun a =>
      a.user_id == uid && moduleIdIn training a.module_id && a.is_passed)).map
    (·.module_id)).dedup).length

/-- DRF `CharField` `trim_whitespace=True`: Python `str.strip()`, removing
leading and trailing whitespace. -/
def stripName (s : String) : String :=
  String.mk (((s.toList.dropWhile Char.isWhitespace).reverse.dropWhile
    Char.isWhitespace).reverse)

/-- The `best_scores` list of the certificate-creation block: per training
module, the best passing score, modules without a passing attempt skipped. -/
def bestScores (st : Store) (uid : Nat) : List ℚ :=
  st.trainingModules.filterMap (fun m => bestPassedScore st uid m.id)

/-- `average_score = sum(best_scores) / len(best_scores) if best_scores else 0`. -/
def averageBest (st : Store) (uid : Nat) : ℚ :=
  if (bestScores st uid).length > 0 then
    (bestScores st uid).sum / ((bestScores st uid).length : ℚ)
  else 0

/-- The certificate row built by `Certificate.objects.create(...)` followed by
`Certificate.save` (blank code, so `save` generates one). -/
def issuedCert (st : Store) (u : User) (full_name : String) (stream : Nat → Nat) : Certificate :=
  Certificate.applySave u stream
    { user_id := u.id, verification_code := "", full_name := full_name,
      total_modules_completed := (bestScores st u.id).length,
      average_score := averageBest st u.id, is_valid := true }

/-- The outcome of `request_certificate`. -/
inductive CertResponse where
  | fonInstructions (payload : FonPayload)
  | alreadyHave (message : String) (certificate : Certificate)
  | badRequest (errors : String)
  | integrityError (field : String)
  | doesNotExist (model : String)
  | created (message : String) (certificate : Certificate)
deriving DecidableEq, Repr

/-- `progress.views.request_certificate`: the Fon-instructions branch for
any non-French user, the idempotent short-circuit on an existing valid
certificate, serializer field validation on `full_name` (`CharField` with
`trim_whitespace=True` and `allow_blank=False`: the name is stripped, a
blank-after-strip name fails with the blank-field error, and the max-length
check runs on the stripped value), the eligibility check (all training
modules passed), the best-score average, `Certificate` creation with the
stripped name through its `save` (the storage unique constraint on
`verification_code` raising on a collision, with no retry), and the bare
`OverallProgress.objects.get(user=user)` that raises DoesNotExist after the
certificate row was inserted. `UserActivity` logging is not modelled. -/
def request_certificate (st : Store) (u : User) (full_name : String)
    (stream : Nat → Nat) : Store × CertResponse :=
  if u.preferred_language ≠ "FR" then
    (st, .fonInstructions (fonPayload st u))
  else
    match st.certificates.find? (fun c => c.user_id == u.id && c.is_valid) with
    | some existing => (st, .alreadyHave "Vous avez déjà un certificat valide" existing)
    | none =>
      if stripName full_name = "" then
        (st, .badRequest "full_name: ce champ ne peut être vide.")
      else if (stripName full_name).length > 100 then
        (st, .badRequest "full_name: longueur maximale dépassée.")
      else if passedTrainingCount st u.id < st.trainingModules.length then
        (st, .badRequest "Vous devez valider tous les modules avant de demander l’attestation.")
      else if st.certificates.any
          (fun c => c.verification_code ==
            (issuedCert st u (stripName full_name) stream).verification_code) then
        (st, .integrityError "verification_code")
      else
        match st.overall.find? (fun o => o.user_id == u.id) with
        | none =>
          ({ st with certificates :=
               st.certificates ++ [issuedCert st u (stripName full_name) stream] },
           .doesNotExist "OverallProgress")
        | some op =>
          ({ st with certificates :=
               st.certificates ++ [issuedCert st u (stripName full_name) stream],
                     overall := st.overall.map (fun o =>
                       if o.user_id == u.id then { op with certificate_requested := true } else o) },
           .created "Certificat généré avec succès" (issuedCert st u (stripName full_name) stream))

/-- The points one resolved answer earns: the question's full points iff the
selected choice-id set equals the correct choice-id set, else zero. -/
def pairEarned (st : Store) (p : QuizQuestion × List AnswerChoice) : Nat :=
  if correctChoiceIds st p.1 = (p.2.map (·.id)).toFinset then p.1.points else 0

/-- A sequence of sequential `submit_quiz` calls by one user; a failed call
leaves the store unchanged. -/
def runSubmissions (u : User) (st : Store) : List (QuizSubmission × Nat) → Store
  | [] => st
  | (sub, now) :: rest => runSubmissions u (submit_quiz st u sub now).1 rest

/-- A sequence of sequential `track_audio_progress` calls by one user on one
module: percentage, position and clock per call. -/
def runAudioCalls (u : User) (module_id : Nat) (st : Store) :
    List (ℚ × Nat × Nat) → Store
  | [] => st
  | (p, t, now) :: rest =>
    runAudioCalls u module_id (track_audio_progress st u module_id p t now).1 rest

/-- The stored audio percentage for a `(user, module)` pair, if a row exists. -/
def storedAudioPct (st : Store) (uid mid : Nat) : Option ℚ :=
  (st.module_progress.find? (progressKey uid mid)).map (·.progress_percentage)

/-! ### Concrete fixtures used by witnesses and counterexamples -/

/-- A training module with quiz and audio content. -/
def mod1 : Module := { id := 1, number := 1, is_active := true, has_audio := true }

/-- A SINGLE-choice question worth 2 points on `mod1`. -/
def ques1 : QuizQuestion :=
  { id := 11, module_id := 1, order := 1, question_type := "SINGLE", points := 2, is_active := true }

/-- The correct choice of `ques1`. -/
def choiceA : AnswerChoice := { id := 21, question_id := 11, is_correct := true }

/-- The wrong choice of `ques1`. -/
def choiceB : AnswerChoice := { id := 22, question_id := 11, is_correct := false }

/-- A French-track user. -/
def userFR : User := { id := 1, preferred_language := "FR", full_name := "Alice Demo" }

/-- A Fon-track user. -/
def userFON : User := { id := 2, preferred_language := "FON", full_name := "Bob Demo" }

/-- The base store: one training module with one quiz question, no user data. -/
def baseStore : Store :=
  { modules := [mod1], questions := [ques1], choices := [choiceA, choiceB],
    attempts := [], quiz_answers := [], module_progress := [], certificates := [],
    overall := [] }

/-- A correct one-answer submission on `mod1`. -/
def subCorrect : QuizSubmission :=
  { module_id := 1, answers := [{ question_id := 11, selected_choice_ids := [21] }],
    started_at := 5 }

/-- A wrong one-answer submission on `mod1`. -/
def subWrong : QuizSubmission :=
  { module_id := 1, answers := [{ question_id := 11, selected_choice_ids := [22] }],
    started_at := 6 }

/-- A submission answering the same question twice — it passes validation but
crashes the answer loop on the `(attempt, question)` unique constraint. -/
def subDup : QuizSubmission :=
  { module_id := 1,
    answers := [{ question_id := 11, selected_choice_ids := [21] },
                { question_id := 11, selected_choice_ids := [21] }],
    started_at := 5 }

/-- The resolved answer list of `subDup` in `baseStore`. -/
def pairsDup : List (QuizQuestion × List AnswerChoice) :=
  [(ques1, [choiceA]), (ques1, [choiceA])]

/-- A passing attempt of `userFR` on `mod1`, as `submit_quiz` would persist it
for `subCorrect`. -/
def attemptPassed : UserQuizAttempt :=
  { user_id := 1, module_id := 1, attempt_number := 1, score := 100,
    total_questions := 1, correct_answers := 1, is_passed := true,
    started_at := 5, completed_at := 7 }

/-- `baseStore` after `userFR` passed the quiz of `mod1`. -/
def storePassed : Store := { baseStore with attempts := [attemptPassed] }

/-- An `OverallProgress` row of `userFR` before any recomputation. -/
def overallFR0 : OverallProgress :=
  { user_id := 1, total_modules := 10, completed_modules := 0, completion_percentage := 0,
    total_quiz_attempts := 0, average_quiz_score := none, total_audio_time := 0,
    can_get_certificate := false, certificate_requested := false, completed_at := none }

/-- `storePassed` with the `OverallProgress` row present. -/
def storePassedOv : Store := { storePassed with overall := [overallFR0] }

/-- Witness for C10: in a store whose only certificate with code `REVOKED00000`
is revoked, verification of that code and of a never-issued code both answer
the same not-found payload. -/
def storeRevoked : Store :=
  { baseStore with certificates :=
      [{ user_id := 1, verification_code := "REVOKED00000", full_name := "Alice Demo",
         total_modules_completed := 9, average_score := 90, is_valid := false }] }

/-- A store where `userFON` has fully completed the audio track. -/
def storeFonDone : Store :=
  { baseStore with module_progress :=
      [{ user_id := 2, module_id := 1, progress_percentage := 100, is_completed := true,
         last_audio_position := 300, total_listening_time := 300, listening_sessions := 3,
         completed_at := some 50 }] }

/-- Counterexample for C1 as stated: a Fon-track user who holds a valid
certificate receives the manual-verification payload, not the existing
certificate. -/
def certFon : Certificate :=
  { user_id := 2, verification_code := "ZZZZZZZZZZZZ", full_name := "Bob Demo",
    total_modules_completed := 9, average_score := 0, is_valid := true }

/-- Store in which the Fon user `userFON` holds the valid certificate `certFon`. -/
def storeFonCert : Store := { baseStore with certificates := [certFon] }

/-- Witness for C1's amended theorem: a French user holding a valid
certificate gets it back unchanged. -/
def certFR : Certificate :=
  { user_id := 1, verification_code := "YYYYYYYYYYYY", full_name := "Alice Demo",
    total_modules_completed := 9, average_score := 95, is_valid := true }

/-- Store in which `userFR` holds the valid certificate `certFR`. -/
def storeFRCert : Store := { baseStore with certificates := [certFR] }

/-- A foreign certificate already carrying the code the stream will generate. -/
def certClash : Certificate :=
  { user_id := 99, verification_code := "AAAAAAAAAAAA", full_name := "Other Person",
    total_modules_completed := 9, average_score := 80, is_valid := true }

/-- An eligible store whose certificate table already holds `certClash`. -/
def storeClash : Store := { storePassedOv with certificates := [certClash] }

/-- The certificate issued to `userFR` in `storePassedOv` under the all-zero
stream. -/
def certIssued : Certificate :=
  issuedCert storePassedOv userFR (stripName "Alice Demo") (fun _ => 0)

/-- A second training module, never attempted. -/
def mod2 : Module := { id := 2, number := 2, is_active := true, has_audio := true }

/-- `baseStore` with two active training modules. -/
def storeTwoMods : Store := { baseStore with modules := [mod1, mod2] }

/-- The resolved answer list of `subCorrect` in `baseStore`. -/
def pairsCorrect : List (QuizQuestion × List AnswerChoice) := [(ques1, [choiceA])]

/-- The result of submitting `subCorrect` in `baseStore`. -/
def resultCorrect : AttemptResult :=
  { attempt := finalAttempt baseStore userFR mod1 pairsCorrect 5 7,
    passed := (finalAttempt baseStore userFR mod1 pairsCorrect 5 7).is_passed }

/-! ### C10 — certificate verification -/

/-- C10: `verify_certificate` performs no writes, and it answers the constant
not-found payload exactly when no valid certificate carries the given code —
so a revoked code and a never-issued code are indistinguishable to the
verifier. -/
theorem verify_certificate_valid_iff (st : Store) (code : String) :
    (verify_certificate st code).1 = st ∧
    ((verify_certificate st code).2 = VerifyResp.notFound "Certificat non trouvé ou invalide" ↔
      ∀ c ∈ st.certificates, c.verification_code = code → c.is_valid = false) := by
  unfold verify_certificate
  rcases h : st.certificates.find? (fun c => c.verification_code == code && c.is_valid) with _ | c
  all_goals simp only [h]
  · refine ⟨trivial, ?_⟩
    simp only [true_iff]
    intro c hc hcode
    have hnp := List.find?_eq_none.mp h c hc
    simpa [hcode] using hnp
  · simp only [reduceCtorEq, false_iff, not_forall]
    refine ⟨trivial, ?_⟩
    have hmem := List.mem_of_find?_eq_some h
    have hpred := List.find?_some h
    simp only [Bool.and_eq_true, beq_iff_eq] at hpred
    exact ⟨c, hmem, hpred.1, by simp [hpred.2]⟩

theorem verify_certificate_valid_iff_witness :
    (verify_certificate storeRevoked "REVOKED00000").2 =
      VerifyResp.notFound "Certificat non trouvé ou invalide" ∧
    (verify_certificate storeRevoked "NEVERISSUED0").2 =
      VerifyResp.notFound "Certificat non trouvé ou invalide" := by
  refine ⟨((verify_certificate_valid_iff storeRevoked "REVOKED00000").2).mpr ?_,
          ((verify_certificate_valid_iff storeRevoked "NEVERISSUED0").2).mpr ?_⟩ <;> decide

/-! ### C6 — non-French users always receive the manual-verification payload -/

/-- C6: for any user whose preferred language is not French,
`request_certificate` answers the structured manual-verification payload and
leaves the store unchanged — never a certificate and never an error,
regardless of the user's audio completion state. -/
theorem request_certificate_non_french (st : Store) (u : User) (fn : String)
    (stream : Nat → Nat) (h : u.preferred_language ≠ "FR") :
    request_certificate st u fn stream = (st, CertResponse.fonInstructions (fonPayload st u)) := by
  unfold request_certificate
  simp [h]

theorem request_certificate_non_french_witness :
    userFON.preferred_language ≠ "FR" ∧
    request_certificate storeFonDone userFON "Bob Demo" (fun _ => 0) =
      (storeFonDone, CertResponse.fonInstructions (fonPayload storeFonDone userFON)) :=
  ⟨by decide, request_certificate_non_french storeFonDone userFON "Bob Demo" (fun _ => 0)
    (by decide)⟩

/-! ### C1 — idempotent short-circuit on an existing valid certificate -/

/-- C1 (amended): when a valid certificate already exists for the user,
`request_certificate` never writes — and for a French-track user it returns
that first existing valid certificate unchanged, without re-evaluating
eligibility. (The claim's universal "for every user" fails: the language
check precedes the existing-certificate check, see the counterexample.) -/
theorem request_certificate_existing_valid (st : Store) (u : User) (fn : String)
    (stream : Nat → Nat) (c : Certificate)
    (h : st.certificates.find? (fun c => c.user_id == u.id && c.is_valid) = some c) :
    (request_certificate st u fn stream).1 = st ∧
    (u.preferred_language = "FR" →
      (request_certificate st u fn stream).2 =
        CertResponse.alreadyHave "Vous avez déjà un certificat valide" c) := by
  unfold request_certificate
  by_cases hl : u.preferred_language = "FR"
  · simp [hl, h]
  · simp [hl]

theorem request_certificate_existing_valid_cex :
    storeFonCert.certificates.find? (fun c => c.user_id == userFON.id && c.is_valid) =
      some certFon ∧
    certFon.is_valid = true ∧
    (request_certificate storeFonCert userFON "Bob Demo" (fun _ => 0)).2 =
      CertResponse.fonInstructions (fonPayload storeFonCert userFON) ∧
    (request_certificate storeFonCert userFON "Bob Demo" (fun _ => 0)).2 ≠
      CertResponse.alreadyHave "Vous avez déjà un certificat valide" certFon := by
  refine ⟨rfl, rfl, rfl, ?_⟩
  decide

theorem request_certificate_existing_valid_witness :
    (request_certificate storeFRCert userFR "Alice Demo" (fun _ => 0)).1 = storeFRCert ∧
    (request_certificate storeFRCert userFR "Alice Demo" (fun _ => 0)).2 =
      CertResponse.alreadyHave "Vous avez déjà un certificat valide" certFR := by
  have h := request_certificate_existing_valid storeFRCert userFR "Alice Demo" (fun _ => 0)
    certFR (by decide)
  exact ⟨h.1, h.2 (by decide)⟩

/-! ### C2 — verification-code shape and the absent collision retry -/

/-- `genCode` always yields exactly 12 characters. -/
lemma genCode_length (stream : Nat → Nat) : (genCode stream).length = 12 := by
  simp [genCode, String.length]

/-- Every character of a generated code comes from the 36-character
uppercase-plus-digits alphabet. -/
lemma genCode_chars (stream : Nat → Nat) :
    ∀ ch ∈ (genCode stream).toList, ch ∈ codeAlphabet := by
  intro ch hch
  simp only [genCode, String.toList, List.mem_map, List.mem_range] at hch
  obtain ⟨i, _, rfl⟩ := hch
  have hlt : stream i % 36 < codeAlphabet.length := by
    have h36 : codeAlphabet.length = 36 := by decide
    rw [h36]
    exact Nat.mod_lt _ (by norm_num)
  rw [List.getD_eq_getElem codeAlphabet 'A' hlt]
  exact List.getElem_mem hlt

/-- `applyFullName` never touches the verification code. -/
lemma applyFullName_code (u : User) (c : Certificate) :
    (Certificate.applyFullName u c).verification_code = c.verification_code := by
  unfold Certificate.applyFullName
  split <;> rfl

/-- `applyFullName` never touches the owner. -/
lemma applyFullName_user_id (u : User) (c : Certificate) :
    (Certificate.applyFullName u c).user_id = c.user_id := by
  unfold Certificate.applyFullName
  split <;> rfl

/-- `Certificate.save` on a blank code writes exactly the generated code. -/
lemma applySave_code_blank (u : User) (stream : Nat → Nat) (c : Certificate)
    (h : c.verification_code = "") :
    (Certificate.applySave u stream c).verification_code = genCode stream := by
  unfold Certificate.applySave
  rw [if_pos h, applyFullName_code]

/-- The code written into `issuedCert` is the generated one. -/
lemma issuedCert_code (st : Store) (u : User) (fn : String) (stream : Nat → Nat) :
    (issuedCert st u fn stream).verification_code = genCode stream :=
  applySave_code_blank u stream _ rfl

/-- The certificate of a `created` response carries the generated code. -/
lemma request_certificate_created_code (st : Store) (u : User) (fn : String)
    (stream : Nat → Nat) (msg : String) (c : Certificate)
    (h : (request_certificate st u fn stream).2 = CertResponse.created msg c) :
    c.verification_code = genCode stream := by
  unfold request_certificate at h
  split at h
  · cases h
  · split at h
    · cases h
    · split at h
      · cases h
      · split at h
        · cases h
        · split at h
          · cases h
          · split at h
            · cases h
            · split at h
              · cases h
              · simp only [Prod.snd, CertResponse.created.injEq] at h
                rw [← h.2]
                exact issuedCert_code st u (stripName fn) stream

/-- C2 (amended): every certificate issued by `request_certificate` carries a
12-character verification code drawn from uppercase letters and digits.
The collision-retry half of the claim is false: `Certificate.save` performs no
collision check, so a clash with an existing code makes the insert violate
the storage unique constraint instead of being regenerated (see the
counterexample). -/
theorem request_certificate_code_shape (st : Store) (u : User) (fn : String)
    (stream : Nat → Nat) (msg : String) (c : Certificate)
    (h : (request_certificate st u fn stream).2 = CertResponse.created msg c) :
    c.verification_code.length = 12 ∧ ∀ ch ∈ c.verification_code.toList, ch ∈ codeAlphabet := by
  have hc := request_certificate_created_code st u fn stream msg c h
  rw [hc]
  exact ⟨genCode_length stream, genCode_chars stream⟩

/-- Counterexample for C2 as stated: at this input the generated code equals
an existing certificate's code, and issuance fails with the unique-constraint
violation — generation is not retried until unique. -/
theorem request_certificate_code_shape_cex :
    genCode (fun _ => 0) = "AAAAAAAAAAAA" ∧
    (request_certificate storeClash userFR "Alice Demo" (fun _ => 0)).2 =
      CertResponse.integrityError "verification_code" ∧
    (request_certificate storeClash userFR "Alice Demo" (fun _ => 0)).1 = storeClash := by
  refine ⟨by decide, by decide, by decide⟩

theorem request_certificate_code_shape_witness :
    (request_certificate storePassedOv userFR "Alice Demo" (fun _ => 0)).2 =
      CertResponse.created "Certificat généré avec succès" certIssued ∧
    certIssued.verification_code.length = 12 ∧
    ∀ ch ∈ certIssued.verification_code.toList, ch ∈ codeAlphabet :=
  ⟨rfl,
   (request_certificate_code_shape storePassedOv userFR "Alice Demo" (fun _ => 0)
     "Certificat généré avec succès" certIssued rfl).1,
   (request_certificate_code_shape storePassedOv userFR "Alice Demo" (fun _ => 0)
     "Certificat généré avec succès" certIssued rfl).2⟩

/-! ### C7 — ineligible French users get a fixed error, without the count -/

/-- C7 (amended): a French-track user without an existing valid certificate
who has not passed all active training modules gets a 400 validation error
with a fixed message; the error payload does not carry the remaining-modules
count (see the counterexample: different remaining counts, identical
payload). -/
theorem request_certificate_ineligible (st : Store) (u : User) (fn : String)
    (stream : Nat → Nat)
    (hL : u.preferred_language = "FR")
    (hc : st.certificates.find? (fun c => c.user_id == u.id && c.is_valid) = none)
    (hb : stripName fn ≠ "")
    (hn : (stripName fn).length ≤ 100)
    (hp : passedTrainingCount st u.id < st.trainingModules.length) :
    request_certificate st u fn stream =
      (st, CertResponse.badRequest
        "Vous devez valider tous les modules avant de demander l’attestation.") := by
  unfold request_certificate
  simp [hL, hc, hb, Nat.not_lt.mpr hn, hp]

/-- Counterexample for C7 as stated: one module remaining and two modules
remaining produce byte-identical error payloads, so the payload cannot
identify how many modules remain. -/
theorem request_certificate_ineligible_cex :
    baseStore.trainingModules.length - passedTrainingCount baseStore userFR.id = 1 ∧
    storeTwoMods.trainingModules.length - passedTrainingCount storeTwoMods userFR.id = 2 ∧
    (request_certificate baseStore userFR "Alice Demo" (fun _ => 0)).2 =
      CertResponse.badRequest
        "Vous devez valider tous les modules avant de demander l’attestation." ∧
    (request_certificate storeTwoMods userFR "Alice Demo" (fun _ => 0)).2 =
      (request_certificate baseStore userFR "Alice Demo" (fun _ => 0)).2 := by
  refine ⟨by decide, by decide, by decide, by decide⟩

theorem request_certificate_ineligible_witness :
    request_certificate baseStore userFR "Alice Demo" (fun _ => 0) =
      (baseStore, CertResponse.badRequest
        "Vous devez valider tous les modules avant de demander l’attestation.") :=
  request_certificate_ineligible baseStore userFR "Alice Demo" (fun _ => 0)
    (by decide) (by decide) (by decide) (by decide) (by decide)

/-! ### C9 — bare OverallProgress get after the certificate insert -/

/-- The owner of the issued certificate is the requesting user. -/
lemma issuedCert_user_id (st : Store) (u : User) (fn : String) (stream : Nat → Nat) :
    (issuedCert st u fn stream).user_id = u.id := by
  unfold issuedCert Certificate.applySave
  rw [applyFullName_user_id]
  split <;> rfl

/-- C9: an eligible French-track user with no `OverallProgress` row hits the
bare `OverallProgress.objects.get(user=user)` and the operation ends in the
unhandled DoesNotExist — after the certificate row has already been
inserted. -/
theorem request_certificate_missing_overall (st : Store) (u : User) (fn : String)
    (stream : Nat → Nat)
    (hL : u.preferred_language = "FR")
    (hc : st.certificates.find? (fun c => c.user_id == u.id && c.is_valid) = none)
    (hb : stripName fn ≠ "")
    (hn : (stripName fn).length ≤ 100)
    (hp : ¬ passedTrainingCount st u.id < st.trainingModules.length)
    (hcode : (st.certificates.any (fun c => c.verification_code ==
      (issuedCert st u (stripName fn) stream).verification_code)) = false)
    (hov : st.overall.find? (fun o => o.user_id == u.id) = none) :
    (request_certificate st u fn stream).2 = CertResponse.doesNotExist "OverallProgress" ∧
    (request_certificate st u fn stream).1.certificates =
      st.certificates ++ [issuedCert st u (stripName fn) stream] ∧
    (issuedCert st u (stripName fn) stream).user_id = u.id := by
  unfold request_certificate
  simp [hL, hc, hb, Nat.not_lt.mpr hn, hp, hcode, hov, issuedCert_user_id]

theorem request_certificate_missing_overall_witness :
    (request_certificate storePassed userFR "Alice Demo" (fun _ => 0)).2 =
      CertResponse.doesNotExist "OverallProgress" ∧
    (request_certificate storePassed userFR "Alice Demo" (fun _ => 0)).1.certificates =
      storePassed.certificates ++
        [issuedCert storePassed userFR (stripName "Alice Demo") (fun _ => 0)] ∧
    (issuedCert storePassed userFR (stripName "Alice Demo") (fun _ => 0)).user_id = userFR.id :=
  request_certificate_missing_overall storePassed userFR "Alice Demo" (fun _ => 0)
    (by decide) (by decide) (by decide) (by decide) (by decide) (by decide) (by decide)

/-! ### C5 — recompute is idempotent -/

/-- The language-statistics block never touches the completion percentage. -/
lemma updateLangStats_pct (st : Store) (u : User) (s : OverallProgress) :
    (updateLangStats st u s).completion_percentage = s.completion_percentage := by
  unfold updateLangStats
  split
  · dsimp only
    split
    · rfl
    · split <;> rfl
  · rfl

/-- The language-statistics block never touches `completed_at`. -/
lemma updateLangStats_completed_at (st : Store) (u : User) (s : OverallProgress) :
    (updateLangStats st u s).completed_at = s.completed_at := by
  unfold updateLangStats
  split
  · dsimp only
    split
    · rfl
    · split <;> rfl
  · rfl

/-- Setting the counters never touches `completed_at`. -/
lemma applyCounters_completed_at (st : Store) (u : User) (s : OverallProgress) :
    (applyCounters st u s).completed_at = s.completed_at := rfl

/-- The percentage step never touches `completed_at`. -/
lemma applyPercentage_completed_at (st : Store) (u : User) (s : OverallProgress) :
    (applyPercentage st u s).completed_at = s.completed_at := by
  unfold applyPercentage
  split <;> rfl

/-- The percentage after the percentage step. -/
lemma applyPercentage_pct (st : Store) (u : User) (s : OverallProgress) :
    (applyPercentage st u s).completion_percentage =
      if st.trainingModules.length > 0 then
        ((computedCompletedCount st u : ℚ) / (st.trainingModules.length : ℚ)) * 100
      else s.completion_percentage := by
  unfold applyPercentage
  split <;> rfl

/-- The eligibility stamp never touches the completion percentage. -/
lemma stampEligibility_pct (st : Store) (u : User) (now : Nat) (s : OverallProgress) :
    (stampEligibility st u now s).completion_percentage = s.completion_percentage := by
  unfold stampEligibility
  split <;> rfl

/-- The eligibility stamp never clears an already-set `completed_at`. -/
lemma stampEligibility_latch (st : Store) (u : User) (now : Nat) (s : OverallProgress)
    (t : Nat) (h : s.completed_at = some t) :
    (stampEligibility st u now s).completed_at = some t := by
  unfold stampEligibility
  rw [h]
  simp

/-- `update_progress` writes the recomputed completed-module count. -/
lemma update_progress_completed_modules (st : Store) (u : User) (now : Nat)
    (s : OverallProgress) :
    (OverallProgress.update_progress st u now s).completed_modules =
      computedCompletedCount st u := by
  unfold OverallProgress.update_progress stampEligibility applyPercentage applyCounters
  split <;> split <;> rfl

/-- `update_progress` writes the recomputed eligibility flag. -/
lemma update_progress_can (st : Store) (u : User) (now : Nat) (s : OverallProgress) :
    (OverallProgress.update_progress st u now s).can_get_certificate =
      (computedCompletedCount st u == st.trainingModules.length) := by
  unfold OverallProgress.update_progress stampEligibility
  split <;> rfl

/-- `update_progress` rewrites the percentage from the store, except when no
training module exists, in which case the stored value passes through. -/
lemma update_progress_pct (st : Store) (u : User) (now : Nat) (s : OverallProgress) :
    (OverallProgress.update_progress st u now s).completion_percentage =
      if st.trainingModules.length > 0 then
        ((computedCompletedCount st u : ℚ) / (st.trainingModules.length : ℚ)) * 100
      else s.completion_percentage := by
  unfold OverallProgress.update_progress
  rw [stampEligibility_pct, applyPercentage_pct]
  split
  · rfl
  · show (updateLangStats st u s).completion_percentage = s.completion_percentage
    exact updateLangStats_pct st u s

/-- `update_progress` never clears an already-set `completed_at`. -/
lemma update_progress_latch (st : Store) (u : User) (now : Nat) (s : OverallProgress)
    (t : Nat) (h : s.completed_at = some t) :
    (OverallProgress.update_progress st u now s).completed_at = some t := by
  unfold OverallProgress.update_progress
  apply stampEligibility_latch
  rw [applyPercentage_completed_at, applyCounters_completed_at,
    updateLangStats_completed_at]
  exact h

/-- C5: with no intervening writes, a second `update_progress` yields the
same completed-module count, completion percentage and eligibility flag as
the first, and it preserves the one-way `completed_at` latch. -/
theorem update_progress_idempotent (st : Store) (u : User) (n1 n2 : Nat)
    (r0 : OverallProgress) :
    (OverallProgress.update_progress st u n2
        (OverallProgress.update_progress st u n1 r0)).completed_modules =
      (OverallProgress.update_progress st u n1 r0).completed_modules ∧
    (OverallProgress.update_progress st u n2
        (OverallProgress.update_progress st u n1 r0)).completion_percentage =
      (OverallProgress.update_progress st u n1 r0).completion_percentage ∧
    (OverallProgress.update_progress st u n2
        (OverallProgress.update_progress st u n1 r0)).can_get_certificate =
      (OverallProgress.update_progress st u n1 r0).can_get_certificate ∧
    (∀ t, (OverallProgress.update_progress st u n1 r0).completed_at = some t →
      (OverallProgress.update_progress st u n2
        (OverallProgress.update_progress st u n1 r0)).completed_at = some t) := by
  refine ⟨?_, ?_, ?_, ?_⟩
  · rw [update_progress_completed_modules, update_progress_completed_modules]
  · rw [update_progress_pct st u n2 (OverallProgress.update_progress st u n1 r0)]
    by_cases hc : st.trainingModules.length > 0
    · rw [if_pos hc, update_progress_pct st u n1 r0, if_pos hc]
    · rw [if_neg hc]
  · rw [update_progress_can, update_progress_can]
  · intro t h
    exact update_progress_latch st u n2 _ t h

theorem update_progress_idempotent_witness :
    (OverallProgress.update_progress storePassed userFR 1 overallFR0).completed_at = some 1 ∧
    (OverallProgress.update_progress storePassed userFR 2
      (OverallProgress.update_progress storePassed userFR 1 overallFR0)).completed_at = some 1 ∧
    (OverallProgress.update_progress storePassed userFR 2
        (OverallProgress.update_progress storePassed userFR 1 overallFR0)).can_get_certificate =
      (OverallProgress.update_progress storePassed userFR 1 overallFR0).can_get_certificate := by
  have h := update_progress_idempotent storePassed userFR 1 2 overallFR0
  exact ⟨by decide, h.2.2.2 1 (by decide), h.2.2.1⟩

/-! ### C3 — quiz scoring -/

/-- The grading loop's possible-points total is the sum of the submitted
questions' point values. -/
lemma gradeAnswers_possible (st : Store) (uid mid anum : Nat) :
    ∀ pairs, (gradeAnswers st uid mid anum pairs).total_points_possible =
      (pairs.map (fun p => p.1.points)).sum
  | [] => rfl
  | (q, sel) :: rest => by
    simp only [gradeAnswers, List.map_cons, List.sum_cons]
    rw [gradeAnswers_possible st uid mid anum rest]

/-- The grading loop's earned-points total is the sum of the per-answer
all-or-nothing awards. -/
lemma gradeAnswers_earned (st : Store) (uid mid anum : Nat) :
    ∀ pairs, (gradeAnswers st uid mid anum pairs).total_points_earned =
      (pairs.map (pairEarned st)).sum
  | [] => rfl
  | (q, sel) :: rest => by
    simp only [gradeAnswers, List.map_cons, List.sum_cons]
    rw [gradeAnswers_earned st uid mid anum rest]
    unfold pairEarned
    by_cases hEq : correctChoiceIds st q = (sel.map (·.id)).toFinset
    · simp [hEq]
    · simp [hEq]

/-- Every persisted answer row records exactly the set-equality verdict and
the corresponding all-or-nothing points. -/
lemma gradeAnswers_rows (st : Store) (uid mid anum : Nat) :
    ∀ pairs, List.Forall₂ (fun (p : QuizQuestion × List AnswerChoice) (row : UserQuizAnswer) =>
        (row.is_correct = true ↔ correctChoiceIds st p.1 = (p.2.map (·.id)).toFinset) ∧
        row.points_earned = (pairEarned st p : ℚ))
      pairs (gradeAnswers st uid mid anum pairs).answer_rows
  | [] => List.Forall₂.nil
  | (q, sel) :: rest => by
    refine List.Forall₂.cons ?_ (gradeAnswers_rows st uid mid anum rest)
    constructor
    · simp only [beq_iff_eq]
    · unfold pairEarned
      by_cases hEq : correctChoiceIds st q = (sel.map (·.id)).toFinset
      · simp [hEq]
      · simp [hEq]

/-- When the answer loop completes without an integrity error, its totals and
rows are exactly those of the grading recursion. -/
lemma processAnswers_ok (st : Store) (uid mid anum : Nat) :
    ∀ (pairs : List (QuizQuestion × List AnswerChoice)) (seen : List Nat) (g : Graded),
      processAnswers st uid mid anum seen pairs = Except.ok g →
      g = gradeAnswers st uid mid anum pairs
  | [], _, g, h => by
    cases h
    rfl
  | (q, sel) :: rest, seen, g, h => by
    unfold processAnswers at h
    split at h
    · cases h
    · split at h
      · rename_i g' hg'
        obtain rfl := processAnswers_ok st uid mid anum rest (q.id :: seen) g' hg'
        cases h
        rfl
      · cases h

/-- The final row update applied to the loop's totals coincides with the
grading-recursion form of the attempt. -/
lemma finalAttemptOf_gradeAnswers (st : Store) (u : User) (module : Module)
    (pairs : List (QuizQuestion × List AnswerChoice)) (started now : Nat) :
    finalAttemptOf st u module
      (gradeAnswers st u.id module.id (assignedAttemptNumber st u.id module.id) pairs)
      started now = finalAttempt st u module pairs started now := rfl

/-- The store/result shape of a successful `submit_quiz`. -/
lemma submit_quiz_ok_shape (st : Store) (u : User) (sub : QuizSubmission) (now : Nat)
    (r : AttemptResult) (hok : (submit_quiz st u sub now).2 = SubmitResult.ok r) :
    ∃ module pairs,
      st.modules.find? (fun m => m.id == sub.module_id && m.is_active) = some module ∧
      resolveAnswers st sub.answers = some pairs ∧
      r = { attempt := finalAttempt st u module pairs sub.started_at now,
            passed := (finalAttempt st u module pairs sub.started_at now).is_passed } ∧
      submit_quiz st u sub now =
        ({ st with
            attempts := st.attempts ++ [finalAttempt st u module pairs sub.started_at now],
            quiz_answers := st.quiz_answers ++
              (gradeAnswers st u.id module.id (assignedAttemptNumber st u.id module.id)
                pairs).answer_rows },
         SubmitResult.ok r) := by
  rcases hm : st.modules.find? (fun m => m.id == sub.module_id && m.is_active) with _ | module
  · unfold submit_quiz at hok; simp only [hm] at hok; cases hok
  · unfold submit_quiz at hok
    simp only [hm] at hok
    by_cases hrep : module.is_reporting_module
    · rw [if_pos hrep] at hok; cases hok
    · rw [if_neg hrep] at hok
      rcases hres : resolveAnswers st sub.answers with _ | pairs
      · simp only [hres] at hok; cases hok
      · simp only [hres] at hok
        by_cases h1 : pairs.isEmpty
        · rw [if_pos h1] at hok; cases hok
        · rw [if_neg h1] at hok
          by_cases h2 : pairs.any (fun p => !(answerIsValid st p.1 p.2))
          · rw [if_pos h2] at hok; cases hok
          · rw [if_neg h2] at hok
            by_cases h3 : u.preferred_language ≠ "FR"
            · rw [if_pos h3] at hok; cases hok
            · rw [if_neg h3] at hok
              by_cases h4 : (module.get_quiz_questions st).isEmpty
              · rw [if_pos h4] at hok; cases hok
              · rw [if_neg h4] at hok
                rcases hpa : processAnswers st u.id module.id
                    (assignedAttemptNumber st u.id module.id) [] pairs with rows | g
                · simp only [hpa] at hok; cases hok
                · simp only [hpa] at hok
                  obtain rfl : g = gradeAnswers st u.id module.id
                      (assignedAttemptNumber st u.id module.id) pairs :=
                    processAnswers_ok st u.id module.id _ pairs [] g hpa
                  rw [finalAttemptOf_gradeAnswers] at hok
                  refine ⟨module, pairs, hm, ?_, ?_, ?_⟩
                  · rfl
                  · exact (SubmitResult.ok.inj hok).symm
                  · unfold submit_quiz
                    simp only [hm, hres, hpa]
                    rw [if_neg hrep, if_neg h1, if_neg h2, if_neg h3, if_neg h4]
                    rw [finalAttemptOf_gradeAnswers, (SubmitResult.ok.inj hok)]

/-- `computeScore` written the way the spec states it. -/
lemma computeScore_spec (earned possible : Nat) :
    computeScore earned possible =
      if 0 < possible then 100 * (earned : ℚ) / (possible : ℚ) else 0 := by
  unfold computeScore
  split
  · ring
  · rfl

/-- C3 (amended): on a quiz submission that completes (which excludes
duplicate-question submissions — those pass validation but die on the answer
unique constraint, see the counterexample), each persisted answer is correct
iff the selected choice-id set equals the correct choice-id set exactly,
earning full points or zero; the persisted attempt's score is
`100 * earned / possible` when `possible > 0` and `0` otherwise; and the
persisted pass verdict equals `score ≥ 80`. -/
theorem submit_quiz_scoring (st : Store) (u : User) (sub : QuizSubmission) (now : Nat)
    (r : AttemptResult) (pairs : List (QuizQuestion × List AnswerChoice))
    (hres : resolveAnswers st sub.answers = some pairs)
    (hok : (submit_quiz st u sub now).2 = SubmitResult.ok r) :
    (r.attempt.score =
      if 0 < (pairs.map (fun p => p.1.points)).sum then
        100 * ((pairs.map (pairEarned st)).sum : ℚ) /
          (((pairs.map (fun p => p.1.points)).sum : ℕ) : ℚ)
      else 0) ∧
    r.attempt.is_passed = decide ((80 : ℚ) ≤ r.attempt.score) ∧
    r.passed = r.attempt.is_passed ∧
    ∃ rows, (submit_quiz st u sub now).1.quiz_answers = st.quiz_answers ++ rows ∧
      List.Forall₂ (fun (p : QuizQuestion × List AnswerChoice) (row : UserQuizAnswer) =>
        (row.is_correct = true ↔ correctChoiceIds st p.1 = (p.2.map (·.id)).toFinset) ∧
        row.points_earned = (pairEarned st p : ℚ)) pairs rows := by
  obtain ⟨module, pairs', hm, hres', hr, hall⟩ := submit_quiz_ok_shape st u sub now r hok
  rw [hres] at hres'
  obtain rfl : pairs = pairs' := Option.some.inj hres'
  subst hr
  refine ⟨?_, rfl, rfl, ?_⟩
  · show computeScore _ _ = _
    rw [computeScore_spec, gradeAnswers_earned, gradeAnswers_possible]
  · refine ⟨(gradeAnswers st u.id module.id (assignedAttemptNumber st u.id module.id)
      pairs).answer_rows, ?_, gradeAnswers_rows st u.id module.id _ pairs⟩
    rw [hall]

theorem submit_quiz_scoring_witness :
    resolveAnswers baseStore subCorrect.answers = some pairsCorrect ∧
    (submit_quiz baseStore userFR subCorrect 7).2 = SubmitResult.ok resultCorrect ∧
    (resultCorrect.attempt.score =
      if 0 < (pairsCorrect.map (fun p => p.1.points)).sum then
        100 * ((pairsCorrect.map (pairEarned baseStore)).sum : ℚ) /
          (((pairsCorrect.map (fun p => p.1.points)).sum : ℕ) : ℚ)
      else 0) ∧
    resultCorrect.attempt.is_passed = decide ((80 : ℚ) ≤ resultCorrect.attempt.score) := by
  have h := submit_quiz_scoring baseStore userFR subCorrect 7 resultCorrect pairsCorrect
    rfl rfl
  exact ⟨rfl, rfl, h.1, h.2.1⟩

/-- Counterexample for C3 as stated: `subDup` is a valid submission (it
passes every serializer check — the duplicate-question guard is dead code),
yet the call dies on the `(attempt, question)` unique constraint and the
persisted attempt keeps score 0, which differs from the claimed
`100 * earned / possible` value at this input. -/
theorem submit_quiz_scoring_cex :
    resolveAnswers baseStore subDup.answers = some pairsDup ∧
    (pairsDup.map (fun p => p.1.points)).sum = 4 ∧
    (pairsDup.map (pairEarned baseStore)).sum = 4 ∧
    (submit_quiz baseStore userFR subDup 7).2 =
      SubmitResult.integrityError "UserQuizAnswer unique (attempt, question)" ∧
    (submit_quiz baseStore userFR subDup 7).1.attempts =
      baseStore.attempts ++ [initialAttempt baseStore userFR mod1 5 7] ∧
    (initialAttempt baseStore userFR mod1 5 7).score = 0 ∧
    (0 : ℚ) ≠ 100 * (((pairsDup.map (pairEarned baseStore)).sum : ℕ) : ℚ) /
      (((pairsDup.map (fun p => p.1.points)).sum : ℕ) : ℚ) := by
  have he : (pairsDup.map (pairEarned baseStore)).sum = 4 := by decide
  have hp : (pairsDup.map (fun p => p.1.points)).sum = 4 := by decide
  refine ⟨rfl, hp, he, rfl, rfl, rfl, ?_⟩
  rw [he, hp]
  norm_num

/-! ### C8 — attempt numbers are assigned max+1 and stay contiguous -/

/-- A `submit_quiz` call either leaves the store unchanged (validation
failure) or succeeds. -/
lemma submit_quiz_store_cases (st : Store) (u : User) (sub : QuizSubmission) (now : Nat) :
    (submit_quiz st u sub now).1 = st ∨
    (∃ r, (submit_quiz st u sub now).2 = SubmitResult.ok r) ∨
    (∃ msg, (submit_quiz st u sub now).2 = SubmitResult.integrityError msg) := by
  unfold submit_quiz
  split
  · left; rfl
  · split
    · left; rfl
    · split
      · left; rfl
      · split
        · left; rfl
        · split
          · left; rfl
          · split
            · left; rfl
            · split
              · left; rfl
              · split
                · right; right; exact ⟨_, rfl⟩
                · right; left; exact ⟨_, rfl⟩


/-- The greatest element of `range' s (n+1)` is `s + n`. -/
lemma maxNat_range'_succ : ∀ (n s : Nat), maxNat (List.range' s (n + 1)) = some (s + n)
  | 0, s => by simp [List.range'_succ, maxNat]
  | n + 1, s => by
    rw [List.range'_succ]
    show maxNat (s :: List.range' (s + 1) (n + 1)) = some (s + (n + 1))
    unfold maxNat
    rw [maxNat_range'_succ n (s + 1)]
    simp only [Option.some.injEq]
    omega

/-- The greatest used attempt number of the contiguous block `1..n`. -/
lemma maxNat_range'_one (n : Nat) :
    maxNat (List.range' 1 n) = if n = 0 then none else some n := by
  cases n with
  | zero => rfl
  | succ k =>
    rw [maxNat_range'_succ k 1]
    simp [Nat.add_comm]

/-- Appending a row extends the `(user, module)` number list by at most that
row's number. -/
lemma numbersFor_append (l : List UserQuizAttempt) (a : UserQuizAttempt) (uid mid : Nat) :
    ((l ++ [a]).filter (fun x => x.user_id == uid && x.module_id == mid)).map
        (·.attempt_number) =
      (l.filter (fun x => x.user_id == uid && x.module_id == mid)).map (·.attempt_number) ++
        (if a.user_id == uid && a.module_id == mid then [a.attempt_number] else []) := by
  rw [List.filter_append, List.map_append]
  by_cases hkey : (a.user_id == uid && a.module_id == mid) = true
  · simp [hkey]
  · simp [hkey]

/-- The store shape of a `submit_quiz` call that dies on the answer-row
unique constraint: the score-0 attempt row and the pre-crash answer rows are
already committed. -/
lemma submit_quiz_crash_shape (st : Store) (u : User) (sub : QuizSubmission) (now : Nat)
    (msg : String)
    (hcr : (submit_quiz st u sub now).2 = SubmitResult.integrityError msg) :
    ∃ module rows,
      st.modules.find? (fun m => m.id == sub.module_id && m.is_active) = some module ∧
      (submit_quiz st u sub now).1 =
        { st with attempts := st.attempts ++ [initialAttempt st u module sub.started_at now],
                  quiz_answers := st.quiz_answers ++ rows } := by
  rcases hm : st.modules.find? (fun m => m.id == sub.module_id && m.is_active) with _ | module
  · unfold submit_quiz at hcr; simp only [hm] at hcr; cases hcr
  · unfold submit_quiz at hcr
    simp only [hm] at hcr
    by_cases hrep : module.is_reporting_module
    · rw [if_pos hrep] at hcr; cases hcr
    · rw [if_neg hrep] at hcr
      rcases hres : resolveAnswers st sub.answers with _ | pairs
      · simp only [hres] at hcr; cases hcr
      · simp only [hres] at hcr
        by_cases h1 : pairs.isEmpty
        · rw [if_pos h1] at hcr; cases hcr
        · rw [if_neg h1] at hcr
          by_cases h2 : pairs.any (fun p => !(answerIsValid st p.1 p.2))
          · rw [if_pos h2] at hcr; cases hcr
          · rw [if_neg h2] at hcr
            by_cases h3 : u.preferred_language ≠ "FR"
            · rw [if_pos h3] at hcr; cases hcr
            · rw [if_neg h3] at hcr
              by_cases h4 : (module.get_quiz_questions st).isEmpty
              · rw [if_pos h4] at hcr; cases hcr
              · rw [if_neg h4] at hcr
                rcases hpa : processAnswers st u.id module.id
                    (assignedAttemptNumber st u.id module.id) [] pairs with rows | g
                · simp only [hpa] at hcr
                  refine ⟨module, rows, hm, ?_⟩
                  unfold submit_quiz
                  simp only [hm, hres, hpa]
                  rw [if_neg hrep, if_neg h1, if_neg h2, if_neg h3, if_neg h4]
                · simp only [hpa] at hcr; cases hcr

/-- Every `submit_quiz` call either leaves the attempt table unchanged or
appends one row keyed to the caller and carrying the next attempt number —
including the crash path, whose score-0 row is committed before the loop. -/
lemma submit_quiz_attempts_shape (st : Store) (u : User) (sub : QuizSubmission) (now : Nat) :
    (submit_quiz st u sub now).1.attempts = st.attempts ∨
    ∃ a, (submit_quiz st u sub now).1.attempts = st.attempts ++ [a] ∧
      a.user_id = u.id ∧ a.attempt_number = assignedAttemptNumber st u.id a.module_id := by
  rcases submit_quiz_store_cases st u sub now with hsame | ⟨r, hok⟩ | ⟨msg, hcr⟩
  · left; rw [hsame]
  · obtain ⟨module, pairs, hm, hres, hr, hall⟩ := submit_quiz_ok_shape st u sub now r hok
    right
    refine ⟨finalAttempt st u module pairs sub.started_at now, ?_, rfl, rfl⟩
    rw [hall]
  · obtain ⟨module, rows, hm, hall⟩ := submit_quiz_crash_shape st u sub now msg hcr
    right
    refine ⟨initialAttempt st u module sub.started_at now, ?_, rfl, rfl⟩
    rw [hall]

/-- Appending a row with the next attempt number preserves the contiguity
invariant. -/
lemma attempts_invariant_step (st st' : Store) (u : User) (mid : Nat)
    (h : attemptNumbersFor st u.id mid =
      List.range' 1 (attemptNumbersFor st u.id mid).length)
    (hcase : st'.attempts = st.attempts ∨
      ∃ a, st'.attempts = st.attempts ++ [a] ∧ a.user_id = u.id ∧
        a.attempt_number = assignedAttemptNumber st u.id a.module_id) :
    attemptNumbersFor st' u.id mid =
      List.range' 1 (attemptNumbersFor st' u.id mid).length := by
  rcases hcase with hsame | ⟨a, hatt, hu, hnum⟩
  · have heq : attemptNumbersFor st' u.id mid = attemptNumbersFor st u.id mid := by
      unfold attemptNumbersFor attemptsFor
      rw [hsame]
    rw [heq]
    exact h
  · have hnums : attemptNumbersFor st' u.id mid =
        attemptNumbersFor st u.id mid ++
          (if a.user_id == u.id && a.module_id == mid then [a.attempt_number] else []) := by
      unfold attemptNumbersFor attemptsFor
      rw [hatt, numbersFor_append]
    by_cases hkey : a.module_id = mid
    · have hbeq : (a.user_id == u.id && a.module_id == mid) = true := by simp [hu, hkey]
      have hassigned : a.attempt_number = (attemptNumbersFor st u.id mid).length + 1 := by
        rw [hnum, hkey]
        unfold assignedAttemptNumber
        rw [h, maxNat_range'_one]
        rcases Nat.eq_zero_or_pos (attemptNumbersFor st u.id mid).length with h0 | h0
        · rw [h0]
          simp
        · have hne : (attemptNumbersFor st u.id mid).length ≠ 0 := by omega
          simp [hne]
      obtain ⟨L, hL⟩ : ∃ L, (attemptNumbersFor st u.id mid).length = L := ⟨_, rfl⟩
      rw [hL] at h hassigned
      rw [hnums, if_pos hbeq, hassigned, h]
      rw [List.length_append, List.length_range', List.length_cons, List.length_nil]
      have hsnoc : List.range' 1 (L + 1) = List.range' 1 L ++ [1 + 1 * L] :=
        List.range'_concat 1 L
      rw [hsnoc]
      simp [Nat.add_comm]
    · have hbeq : ¬ ((a.user_id == u.id && a.module_id == mid) = true) := by simp [hkey]
      rw [hnums, if_neg hbeq, List.append_nil]
      exact h

/-- The contiguity invariant is preserved by any sequence of submissions. -/
lemma runSubmissions_contiguous (u : User) (mid : Nat) :
    ∀ (subs : List (QuizSubmission × Nat)) (st : Store),
      attemptNumbersFor st u.id mid =
        List.range' 1 (attemptNumbersFor st u.id mid).length →
      attemptNumbersFor (runSubmissions u st subs) u.id mid =
        List.range' 1 (attemptNumbersFor (runSubmissions u st subs) u.id mid).length
  | [], st, h => h
  | (sub, now) :: rest, st, h => by
    show attemptNumbersFor (runSubmissions u (submit_quiz st u sub now).1 rest) u.id mid = _
    exact runSubmissions_contiguous u mid rest (submit_quiz st u sub now).1
      (attempts_invariant_step st (submit_quiz st u sub now).1 u mid h
        (submit_quiz_attempts_shape st u sub now))


/-- C8: each successful submission is assigned attempt number
`1 + max existing` (or `1` when none exists), and starting from a store with
no attempts for the pair, any sequence of sequential submissions leaves the
pair's attempt numbers as the contiguous block `1, 2, 3, ...` in submission
order. -/
theorem submit_quiz_attempt_numbers (u : User) (mid : Nat) :
    (∀ (st : Store) (sub : QuizSubmission) (now : Nat) (r : AttemptResult),
        sub.module_id = mid →
        (submit_quiz st u sub now).2 = SubmitResult.ok r →
        r.attempt.attempt_number =
          (match maxNat (attemptNumbersFor st u.id mid) with
           | none => 1
           | some n => n + 1)) ∧
    (∀ (st : Store) (subs : List (QuizSubmission × Nat)),
        attemptNumbersFor st u.id mid = [] →
        attemptNumbersFor (runSubmissions u st subs) u.id mid =
          List.range' 1 (attemptNumbersFor (runSubmissions u st subs) u.id mid).length) := by
  constructor
  · intro st sub now r hmid' hok
    obtain ⟨module, pairs, hm, hres, hr, hall⟩ := submit_quiz_ok_shape st u sub now r hok
    have hmid : module.id = sub.module_id := by
      have hp := List.find?_some hm
      simp only [Bool.and_eq_true, beq_iff_eq] at hp
      exact hp.1
    subst hr
    show assignedAttemptNumber st u.id module.id = _
    unfold assignedAttemptNumber
    rw [hmid, hmid']
  · intro st subs h0
    apply runSubmissions_contiguous u mid subs st
    rw [h0]
    rfl

theorem submit_quiz_attempt_numbers_witness :
    attemptNumbersFor baseStore userFR.id 1 = [] ∧
    attemptNumbersFor (runSubmissions userFR baseStore [(subCorrect, 7), (subWrong, 8)])
        userFR.id 1 =
      List.range' 1 (attemptNumbersFor
        (runSubmissions userFR baseStore [(subCorrect, 7), (subWrong, 8)]) userFR.id 1).length ∧
    attemptNumbersFor (runSubmissions userFR baseStore [(subCorrect, 7), (subWrong, 8)])
        userFR.id 1 = [1, 2] :=
  ⟨rfl,
   (submit_quiz_attempt_numbers userFR 1).2 baseStore [(subCorrect, 7), (subWrong, 8)] rfl,
   by decide⟩

/-! ### C4 — audio progress is monotone, completion always fires at 100 -/

/-- `ModuleProgress.save` never touches the percentage. -/
lemma applySaveMP_pct (now : Nat) (mp : ModuleProgress) :
    (ModuleProgress.applySave now mp).progress_percentage = mp.progress_percentage := by
  unfold ModuleProgress.applySave
  split
  · rfl
  · split <;> rfl

/-- `ModuleProgress.save` never touches the completion flag. -/
lemma applySaveMP_is_completed (now : Nat) (mp : ModuleProgress) :
    (ModuleProgress.applySave now mp).is_completed = mp.is_completed := by
  unfold ModuleProgress.applySave
  split
  · rfl
  · split <;> rfl

/-- `ModuleProgress.save` never touches the owner. -/
lemma applySaveMP_user_id (now : Nat) (mp : ModuleProgress) :
    (ModuleProgress.applySave now mp).user_id = mp.user_id := by
  unfold ModuleProgress.applySave
  split
  · rfl
  · split <;> rfl

/-- `ModuleProgress.save` never touches the module reference. -/
lemma applySaveMP_module_id (now : Nat) (mp : ModuleProgress) :
    (ModuleProgress.applySave now mp).module_id = mp.module_id := by
  unfold ModuleProgress.applySave
  split
  · rfl
  · split <;> rfl

/-- The completion transition never touches the percentage. -/
lemma audioCompleted_pct (p : ℚ) (now : Nat) (row : ModuleProgress) :
    (audioCompleted p now row).progress_percentage = row.progress_percentage := by
  unfold audioCompleted
  split
  · rw [applySaveMP_pct]
  · rfl

/-- The completion transition never touches the keys. -/
lemma audioCompleted_user_id (p : ℚ) (now : Nat) (row : ModuleProgress) :
    (audioCompleted p now row).user_id = row.user_id := by
  unfold audioCompleted
  split
  · rw [applySaveMP_user_id]
  · rfl

lemma audioCompleted_module_id (p : ℚ) (now : Nat) (row : ModuleProgress) :
    (audioCompleted p now row).module_id = row.module_id := by
  unfold audioCompleted
  split
  · rw [applySaveMP_module_id]
  · rfl

/-- A single update stores exactly the maximum of the old and new percentage. -/
lemma audioUpdatedRow_pct (row : ModuleProgress) (p : ℚ) (t now : Nat) :
    (audioUpdatedRow row p t now).progress_percentage =
      max row.progress_percentage p := by
  unfold audioUpdatedRow
  rw [audioCompleted_pct]
  split
  · rename_i hlt
    rw [applySaveMP_pct]
    exact (max_eq_right (le_of_lt hlt)).symm
  · rename_i hge
    exact (max_eq_left (not_lt.mp hge)).symm

/-- A single update completes the row exactly when the call reports 100 (or
it was already complete). -/
lemma audioUpdatedRow_completed (row : ModuleProgress) (p : ℚ) (t now : Nat) :
    (audioUpdatedRow row p t now).is_completed =
      (decide (100 ≤ p) || row.is_completed) := by
  unfold audioUpdatedRow audioCompleted
  by_cases hp : 100 ≤ p
  · rw [if_pos hp, applySaveMP_is_completed]
    simp [hp]
  · rw [if_neg hp]
    split
    · rw [applySaveMP_is_completed]
      simp [hp]
    · simp [hp]

/-- The update never changes the row's keys. -/
lemma audioUpdatedRow_user_id (row : ModuleProgress) (p : ℚ) (t now : Nat) :
    (audioUpdatedRow row p t now).user_id = row.user_id := by
  unfold audioUpdatedRow
  rw [audioCompleted_user_id]
  split
  · rw [applySaveMP_user_id]
  · rfl

lemma audioUpdatedRow_module_id (row : ModuleProgress) (p : ℚ) (t now : Nat) :
    (audioUpdatedRow row p t now).module_id = row.module_id := by
  unfold audioUpdatedRow
  rw [audioCompleted_module_id]
  split
  · rw [applySaveMP_module_id]
  · rfl

/-- The freshly created row stores the call's percentage. -/
lemma audioCreatedRow_pct (uid mid : Nat) (p : ℚ) (t now : Nat) :
    (audioCreatedRow uid mid p t now).progress_percentage = p := by
  unfold audioCreatedRow
  rw [audioCompleted_pct, applySaveMP_pct]

/-- The freshly created row is complete exactly when the call reports 100. -/
lemma audioCreatedRow_completed (uid mid : Nat) (p : ℚ) (t now : Nat) :
    (audioCreatedRow uid mid p t now).is_completed = decide (100 ≤ p) := by
  unfold audioCreatedRow audioCompleted
  by_cases hp : 100 ≤ p
  · rw [if_pos hp, applySaveMP_is_completed]
    simp [hp]
  · rw [if_neg hp, applySaveMP_is_completed]
    simp [hp]

/-- The created row carries the `(user, module)` key. -/
lemma audioCreatedRow_key (uid mid : Nat) (p : ℚ) (t now : Nat) :
    progressKey uid mid (audioCreatedRow uid mid p t now) = true := by
  unfold progressKey
  unfold audioCreatedRow
  rw [audioCompleted_user_id, audioCompleted_module_id, applySaveMP_user_id,
    applySaveMP_module_id]
  simp

/-- Replacing every matching element of a list leaves `find?` at the
replacement, provided a match existed and the replacement still matches. -/
lemma find?_map_replace {α : Type} (p : α → Bool) (final : α) (hfin : p final = true) :
    ∀ (l : List α) (r : α), l.find? p = some r →
      (l.map (fun a => if p a then final else a)).find? p = some final := by
  intro l
  induction l with
  | nil => intro r h; cases h
  | cons x xs ih =>
    intro r h
    by_cases hx : p x = true
    · rw [List.map_cons, if_pos hx]
      exact List.find?_cons_of_pos _ hfin
    · have hx' : ¬ p x = true := hx
      rw [List.map_cons, if_neg hx']
      rw [List.find?_cons_of_neg _ hx']
      rw [List.find?_cons_of_neg _ hx'] at h
      exact ih r h

/-- One valid call on an existing row: the stored row becomes exactly
`audioUpdatedRow`, and the module table is untouched. -/
lemma audio_step_existing (st : Store) (u : User) (mid : Nat) (m : Module)
    (p : ℚ) (t now : Nat) (r : ModuleProgress)
    (hm : st.modules.find? (fun mm => mm.id == mid && mm.is_active) = some m)
    (hA : m.has_audio = true) (hL : u.preferred_language = "FON")
    (h0 : 0 ≤ p) (h1 : p ≤ 100)
    (hr : st.module_progress.find? (progressKey u.id mid) = some r) :
    (track_audio_progress st u mid p t now).1.modules = st.modules ∧
    (track_audio_progress st u mid p t now).1.module_progress.find?
        (progressKey u.id mid) = some (audioUpdatedRow r p t now) := by
  have hmodid : m.id = mid := by
    have hp' := List.find?_some hm
    simp only [Bool.and_eq_true, beq_iff_eq] at hp'
    exact hp'.1
  have hkey : progressKey u.id mid (audioUpdatedRow r p t now) = true := by
    have hkr := List.find?_some hr
    unfold progressKey at hkr ⊢
    rw [audioUpdatedRow_user_id, audioUpdatedRow_module_id]
    exact hkr
  unfold track_audio_progress
  rw [if_neg (by simp [h0, h1])]
  simp only [hm]
  rw [if_neg (by simp [hA]), if_neg (by simp [hL])]
  simp only [hmodid, hr]
  exact ⟨trivial, find?_map_replace _ _ hkey _ r hr⟩

/-- One valid call with no existing row: the created row is appended, and the
module table is untouched. -/
lemma audio_step_fresh (st : Store) (u : User) (mid : Nat) (m : Module)
    (p : ℚ) (t now : Nat)
    (hm : st.modules.find? (fun mm => mm.id == mid && mm.is_active) = some m)
    (hA : m.has_audio = true) (hL : u.preferred_language = "FON")
    (h0 : 0 ≤ p) (h1 : p ≤ 100)
    (hr : st.module_progress.find? (progressKey u.id mid) = none) :
    (track_audio_progress st u mid p t now).1.modules = st.modules ∧
    (track_audio_progress st u mid p t now).1.module_progress.find?
        (progressKey u.id mid) = some (audioCreatedRow u.id mid p t now) := by
  have hmodid : m.id = mid := by
    have hp' := List.find?_some hm
    simp only [Bool.and_eq_true, beq_iff_eq] at hp'
    exact hp'.1
  unfold track_audio_progress
  rw [if_neg (by simp [h0, h1])]
  simp only [hm]
  rw [if_neg (by simp [hA]), if_neg (by simp [hL])]
  simp only [hmodid, hr]
  refine ⟨trivial, ?_⟩
  rw [List.find?_append, hr]
  simp [List.find?, audioCreatedRow_key u.id mid p t now]

/-- Folding further valid calls on an existing row keeps the stored
percentage at the running maximum. -/
lemma runAudioCalls_max (u : User) (mid : Nat) (m : Module)
    (hA : m.has_audio = true) (hL : u.preferred_language = "FON") :
    ∀ (calls : List (ℚ × Nat × Nat)) (st : Store) (r : ModuleProgress),
      st.modules.find? (fun mm => mm.id == mid && mm.is_active) = some m →
      (∀ c ∈ calls, 0 ≤ c.1 ∧ c.1 ≤ 100) →
      st.module_progress.find? (progressKey u.id mid) = some r →
      ∃ r', (runAudioCalls u mid st calls).module_progress.find?
          (progressKey u.id mid) = some r' ∧
        r'.progress_percentage =
          calls.foldl (fun acc c => max acc c.1) r.progress_percentage
  | [], st, r, _, _, hr => ⟨r, hr, rfl⟩
  | (p, t, now) :: rest, st, r, hm, hall, hr => by
    have hc0 := hall (p, t, now) (List.mem_cons_self _ _)
    obtain ⟨hmods, hfind⟩ :=
      audio_step_existing st u mid m p t now r hm hA hL hc0.1 hc0.2 hr
    have hm' : (track_audio_progress st u mid p t now).1.modules.find?
        (fun mm => mm.id == mid && mm.is_active) = some m := by
      rw [hmods]; exact hm
    obtain ⟨r', hr', hpct⟩ := runAudioCalls_max u mid m hA hL rest
      (track_audio_progress st u mid p t now).1 (audioUpdatedRow r p t now)
      hm' (fun c hc => hall c (List.mem_cons_of_mem _ hc)) hfind
    refine ⟨r', hr', ?_⟩
    rw [hpct, audioUpdatedRow_pct]
    rfl

/-- `foldl max` over a list is its maximum combined with the seed. -/
lemma foldl_max_maxQ : ∀ (l : List ℚ) (a : ℚ),
    l.foldl max a = match maxQ l with | none => a | some m => max a m
  | [], a => rfl
  | x :: xs, a => by
    rw [List.foldl_cons, foldl_max_maxQ xs (max a x)]
    cases hq : maxQ xs with
    | none => simp [maxQ, hq]
    | some m => simp [maxQ, hq, max_assoc]

/-- C4: (1) starting with no stored row, a nonempty sequence of valid
`track_audio_progress` calls leaves the stored percentage at the maximum of
the reported percentages; (2) a single valid call on an existing row stores
`max(old, new)` — so a call with `new ≤ old` leaves the percentage
unchanged — and sets `is_completed` exactly when the call reports the 100%
threshold (or the row was already complete), even on redundant calls. -/
theorem track_audio_progress_monotone (st : Store) (u : User) (mid : Nat) (m : Module)
    (hm : st.modules.find? (fun mm => mm.id == mid && mm.is_active) = some m)
    (hA : m.has_audio = true) (hL : u.preferred_language = "FON") :
    (∀ (c0 : ℚ × Nat × Nat) (calls : List (ℚ × Nat × Nat)),
       (∀ c ∈ c0 :: calls, 0 ≤ c.1 ∧ c.1 ≤ 100) →
       st.module_progress.find? (progressKey u.id mid) = none →
       ∃ r', (runAudioCalls u mid st (c0 :: calls)).module_progress.find?
           (progressKey u.id mid) = some r' ∧
         some r'.progress_percentage = maxQ ((c0 :: calls).map (fun c => c.1))) ∧
    (∀ (p : ℚ) (t now : Nat) (r : ModuleProgress), 0 ≤ p → p ≤ 100 →
       st.module_progress.find? (progressKey u.id mid) = some r →
       ∃ r', (track_audio_progress st u mid p t now).1.module_progress.find?
           (progressKey u.id mid) = some r' ∧
         r'.progress_percentage = max r.progress_percentage p ∧
         (p ≤ r.progress_percentage →
           r'.progress_percentage = r.progress_percentage) ∧
         r'.is_completed = (decide (100 ≤ p) || r.is_completed)) := by
  constructor
  · rintro ⟨p0, t0, now0⟩ calls hall hnone
    have hc0 := hall (p0, t0, now0) (List.mem_cons_self _ _)
    obtain ⟨hmods, hfind⟩ :=
      audio_step_fresh st u mid m p0 t0 now0 hm hA hL hc0.1 hc0.2 hnone
    have hm' : (track_audio_progress st u mid p0 t0 now0).1.modules.find?
        (fun mm => mm.id == mid && mm.is_active) = some m := by
      rw [hmods]; exact hm
    obtain ⟨r', hr', hpct⟩ := runAudioCalls_max u mid m hA hL calls
      (track_audio_progress st u mid p0 t0 now0).1 (audioCreatedRow u.id mid p0 t0 now0)
      hm' (fun c hc => hall c (List.mem_cons_of_mem _ hc)) hfind
    refine ⟨r', hr', ?_⟩
    rw [hpct, audioCreatedRow_pct]
    rw [show calls.foldl (fun acc c => max acc c.1) p0 =
        (calls.map (fun c => c.1)).foldl max p0 from (List.foldl_map _ _ _ _).symm]
    rw [foldl_max_maxQ]
    show _ = maxQ (p0 :: calls.map (fun c => c.1))
    cases hq : maxQ (calls.map (fun c => c.1)) with
    | none => simp [maxQ, hq]
    | some mm => simp [maxQ, hq]
  · intro p t now r h0 h1 hr
    obtain ⟨hmods, hfind⟩ := audio_step_existing st u mid m p t now r hm hA hL h0 h1 hr
    refine ⟨audioUpdatedRow r p t now, hfind, audioUpdatedRow_pct r p t now, ?_,
      audioUpdatedRow_completed r p t now⟩
    intro hle
    rw [audioUpdatedRow_pct]
    exact max_eq_left hle

theorem track_audio_progress_monotone_witness :
    (∃ r', (runAudioCalls userFON 1 baseStore
        [(50, 30, 9), (40, 20, 10), (100, 60, 11), (100, 70, 12)]).module_progress.find?
          (progressKey userFON.id 1) = some r' ∧
      some r'.progress_percentage =
        maxQ ([((50 : ℚ), 30, 9), (40, 20, 10), (100, 60, 11), (100, 70, 12)].map
          (fun c => c.1))) ∧
    (∃ r', (track_audio_progress storeFonDone userFON 1 100 80 13).1.module_progress.find?
          (progressKey userFON.id 1) = some r' ∧
      r'.progress_percentage = max (100 : ℚ) 100 ∧
      (((100 : ℚ) ≤ 100) → r'.progress_percentage = (100 : ℚ)) ∧
      r'.is_completed = (decide ((100 : ℚ) ≤ 100) || true)) := by
  constructor
  · exact (track_audio_progress_monotone baseStore userFON 1 mod1 (by decide) (by decide)
      (by decide)).1
      (50, 30, 9) [(40, 20, 10), (100, 60, 11), (100, 70, 12)]
      (by decide) (by decide)
  · have h := (track_audio_progress_monotone storeFonDone userFON 1 mod1 (by decide)
      (by decide) (by decide)).2
      100 80 13
      { user_id := 2, module_id := 1, progress_percentage := 100, is_completed := true,
        last_audio_position := 300, total_listening_time := 300, listening_sessions := 3,
        completed_at := some 50 }
      (by decide) (by decide) (by decide)
    exact h

end PJ
